import Mathlib

/-!
# A verification development for the Array API client (`src/api/apiClient.ts`)

The client is a class `ApiClient` holding a base URL, one private generic
`request` method and three groups of endpoint closures (`markets`, `wallet`,
`user`).  The embedding below is shallow:

* JavaScript data is the inductive type `JsVal`;
* the platform primitive `fetch` is an explicit parameter (`Fetch`), a function
  from the URL and the init object to the outcome of the network round trip;
* the two observable effects, the calls made to `fetch` and the lines written
  with `console.error`, are recorded in an explicit state `World`;
* an endpoint closure either throws synchronously or returns a promise; a
  promise is represented by the way it settles (`Except JsErr JsVal`).
-/

namespace ArrayApi

/-! ## JavaScript data -/

/-- JavaScript values that are plain data: what `response.json()` can resolve
to and what the request payload objects hold, together with `undefined`.
A number is represented by its canonical `Number::toString` rendering
(`"0"` for both zeros).  An object is the list of its own enumerable
properties in enumeration order; keys are pairwise distinct. -/
inductive JsVal where
  | undefined : JsVal
  | null : JsVal
  | bool (b : Bool) : JsVal
  | num (text : String) : JsVal
  | str (s : String) : JsVal
  | arr (items : List JsVal) : JsVal
  | obj (props : List (String × JsVal)) : JsVal
  deriving Repr

/-- The own enumerable properties of an object, in enumeration order. -/
abbrev JsObject := List (String × JsVal)

/-- A thrown JavaScript error object: its `name` and its `message`. -/
structure JsErr where
  name : String
  message : String
  deriving DecidableEq, Repr

/-- The error made by `new Error(message)` for a string `message`. -/
def mkError (message : String) : JsErr := ⟨"Error", message⟩

/-- ECMAScript `ToBoolean`: `undefined`, `null`, `false`, the zeros, `NaN` and
the empty string are falsy, every other value is truthy. -/
def truthy : JsVal → Bool
  | .undefined => false
  | .null => false
  | .bool b => b
  | .num t => !(t == "0" || t == "NaN")
  | .str s => !(s == "")
  | .arr _ => true
  | .obj _ => true

/-- Reading the own property `key` of an object, `undefined` when absent. -/
def getOwn (props : JsObject) (key : String) : JsVal :=
  match props.lookup key with
  | some v => v
  | none => .undefined

/-- The property access `v.error`.  On `undefined` and `null` it throws a
`TypeError`; on an object it reads the own property (no prototype of a data
value has a property named `error`); on every other value it is `undefined`. -/
def getErrorProp : JsVal → Except JsErr JsVal
  | .undefined =>
      .error ⟨"TypeError", "Cannot read properties of undefined (reading \x27error\x27)"⟩
  | .null =>
      .error ⟨"TypeError", "Cannot read properties of null (reading \x27error\x27)"⟩
  | .obj props => .ok (getOwn props "error")
  | _ => .ok .undefined

mutual
/-- ECMAScript `ToString` on data values.  An array is joined with commas,
`undefined` and `null` elements giving the empty string.  An object without
an own `toString` property gives `"[object Object]"`; an own `toString`
property of a data object is not callable, and then no conversion exists
(`none` stands for the `TypeError` that is thrown). -/
def jsToString : JsVal → Option String
  | .undefined => some "undefined"
  | .null => some "null"
  | .bool b => some (if b then "true" else "false")
  | .num t => some t
  | .str s => some s
  | .arr items => (jsJoinParts items).map (fun parts => ",".intercalate parts)
  | .obj props =>
      if props.any (fun p => p.1 == "toString") then none else some "[object Object]"
/-- The element strings `Array.prototype.join` puts between the separators. -/
def jsJoinParts : List JsVal → Option (List String)
  | [] => some []
  | v :: rest =>
      match (match v with
             | .undefined => some ""
             | .null => some ""
             | w => jsToString w), jsJoinParts rest with
      | some s, some ss => some (s :: ss)
      | _, _ => none
end

/-- One hexadecimal digit, lower case. -/
def hexDigit (n : Nat) : Char :=
  if n < 10 then Char.ofNat (48 + n) else Char.ofNat (87 + n)

/-- The escape `JSON.stringify` writes for one character of a string
(ECMAScript `QuoteJSONString`): the two-character escapes for backspace, tab,
line feed, form feed, carriage return, the double quote and the backslash, a
`\u00XX` escape for every other control character, the character itself
otherwise. -/
def quoteChar (c : Char) : String :=
  if c.toNat = 8 then "\x5cb"
  else if c.toNat = 9 then "\x5ct"
  else if c.toNat = 10 then "\x5cn"
  else if c.toNat = 12 then "\x5cf"
  else if c.toNat = 13 then "\x5cr"
  else if c.toNat = 34 then "\x5c\x22"
  else if c.toNat = 92 then "\x5c\x5c"
  else if c.toNat < 32 then
    "\x5cu00" ++ String.mk [hexDigit (c.toNat / 16), hexDigit (c.toNat % 16)]
  else String.mk [c]

/-- ECMAScript `QuoteJSONString`: the string between double quotes, each
character escaped. -/
def quoteJSON (s : String) : String :=
  "\x22" ++ String.join (s.data.map quoteChar) ++ "\x22"

mutual
/-- ECMAScript `SerializeJSONProperty` without replacer and indentation, the
way `JSON.stringify(value)` is called by the client; `none` stands for the
result `undefined`.  Non-finite numbers are written `null`. -/
def serializeJSON : JsVal → Option String
  | .undefined => none
  | .null => some "null"
  | .bool b => some (if b then "true" else "false")
  | .num t =>
      some (if t == "NaN" || t == "Infinity" || t == "-Infinity" then "null" else t)
  | .str s => some (quoteJSON s)
  | .arr items => some ("[" ++ ",".intercalate (serializeItems items) ++ "]")
  | .obj props => some ("\x7b" ++ ",".intercalate (serializeMembers props) ++ "\x7d")
/-- The elements of a serialized array: an `undefined` element is written
`null`. -/
def serializeItems : List JsVal → List String
  | [] => []
  | v :: rest =>
      (match serializeJSON v with
       | some s => s
       | none => "null") :: serializeItems rest
/-- The members of a serialized object, in property order: a property whose
value is `undefined` is left out. -/
def serializeMembers : List (String × JsVal) → List String
  | [] => []
  | (k, v) :: rest =>
      match serializeJSON v with
      | some s => (quoteJSON k ++ ":" ++ s) :: serializeMembers rest
      | none => serializeMembers rest
end

/-- The call `JSON.stringify(value)`. -/
def JSON.stringify (value : JsVal) : Option String := serializeJSON value

/-- The operator `a || b`. -/
def jsOr (a b : JsVal) : JsVal := if truthy a then a else b

/-- The expression `new Error(message)`: the message is converted with
`ToString` (left empty for `undefined`); a failing conversion throws a
`TypeError` in place of building the error. -/
def newError (message : JsVal) : Except JsErr JsErr :=
  match message with
  | .undefined => .ok (mkError "")
  | v =>
    match jsToString v with
    | some s => .ok (mkError s)
    | none => .error ⟨"TypeError", "Cannot convert object to primitive value"⟩

/-- The test `!s` on a parameter declared `string`; `none` is an absent
argument (`undefined`). -/
def isMissing : Option String → Bool
  | none => true
  | some s => s == ""

/-- A parameter declared `string` inside a template literal. -/
def interpolate : Option String → String
  | none => "undefined"
  | some s => s

/-! ## The platform: `fetch`, responses, the console -/

/-- A headers mapping: property names and values in enumeration order. -/
abbrev Headers := List (String × String)

/-- The options of a request (`RequestInit`), with the recognised options
`method`, `body` and `headers`; `none` is an absent property (a property
that is present and holds `undefined` is not represented). -/
structure RequestInit where
  method : Option String := none
  body : Option String := none
  headers : Option Headers := none
  deriving DecidableEq, Repr

/-- What the client reads of a `Response`: `ok`, `status`, and the way the
promise of `response.json()` settles (the parsed body, or the rejection of a
body that is not JSON). -/
structure Response where
  ok : Bool
  status : Nat
  json : Except JsErr JsVal

/-- The way the promise returned by `fetch` settles. -/
inductive FetchOutcome where
  | rejected (e : JsErr) : FetchOutcome
  | response (r : Response) : FetchOutcome

/-- The primitive `fetch(url, init)`. -/
abbrev Fetch := String → RequestInit → FetchOutcome

/-- One call made to `fetch`. -/
structure FetchCall where
  url : String
  init : RequestInit
  deriving DecidableEq, Repr

/-- One call `console.error(message, error)`. -/
structure LogEntry where
  message : String
  error : JsErr
  deriving DecidableEq, Repr

/-- The observable effects so far: the calls made to `fetch` and the entries
written to the console, oldest first. -/
structure World where
  fetchCalls : List FetchCall := []
  log : List LogEntry := []
  deriving DecidableEq, Repr

/-- How a call of an endpoint closure completes: it throws synchronously, or
it returns a promise, given by the way that promise settles. -/
inductive CallResult where
  | threw (e : JsErr) : CallResult
  | promise (settled : Except JsErr JsVal) : CallResult

/-! ## The client -/

/-- Setting one property of a mapping: an existing key keeps its place and
takes the new value, a new key goes last. -/
def setProp (target : Headers) (key value : String) : Headers :=
  if target.any (fun p => p.1 == key)
  then target.map (fun p => if p.1 == key then (key, value) else p)
  else target ++ [(key, value)]

/-- The object literal `{ ...target, ...source }` on headers mappings; an
absent source adds nothing. -/
def spreadHeaders (target : Headers) (source : Option Headers) : Headers :=
  match source with
  | none => target
  | some h => h.foldl (fun acc p => setProp acc p.1 p.2) target

/-- The object literal `{ ...target, ...source }` on request options: every
property present in `source` replaces that of `target`. -/
def spreadInit (target source : RequestInit) : RequestInit :=
  { method := match source.method with
              | some m => some m
              | none => target.method
    body := match source.body with
            | some b => some b
            | none => target.body
    headers := match source.headers with
               | some h => some h
               | none => target.headers }

/-- The client: `private baseUrl: string`. -/
structure ApiClient where
  baseUrl : String
  deriving DecidableEq, Repr

/-- The constructor `constructor(baseUrl: string = 'http://localhost:3001')`. -/
def ApiClient.constructor (baseUrl : Option String) : ApiClient :=
  { baseUrl := match baseUrl with
               | some b => b
               | none => "http://localhost:3001" }

/-- The second argument of `fetch` in `request`:
`{ headers: { 'Content-Type': 'application/json', ...options.headers }, ...options }`. -/
def fetchInit (options : RequestInit) : RequestInit :=
  spreadInit
    { headers := some (spreadHeaders [("Content-Type", "application/json")] options.headers) }
    options

/-- The text of the template literal `HTTP error ${response.status}`. -/
def httpErrorMessage (status : Nat) : String := "HTTP error " ++ toString status

/-- The statements of `request` after `fetch` has settled, inside `try`:
the way they complete for a given outcome of `fetch`. -/
def afterFetch : FetchOutcome → Except JsErr JsVal
  | .rejected e => .error e
  | .response response =>
    if !response.ok then
      let errorData : JsVal :=
        match response.json with
        | .ok v => v
        | .error _ => .obj [("error", .str (httpErrorMessage response.status))]
      match getErrorProp errorData with
      | .error e => .error e
      | .ok errorField =>
        match newError (jsOr errorField (.str (httpErrorMessage response.status))) with
        | .ok e => .error e
        | .error e => .error e
    else response.json

/-- The method `private async request<T>(endpoint, options)`: the way the
returned promise settles, and the effects.  The `catch` clause writes one
console entry and throws the caught error again. -/
def ApiClient.request (self : ApiClient) (fetch : Fetch) (endpoint : String)
    (options : RequestInit) (w : World) : Except JsErr JsVal × World :=
  let url := self.baseUrl ++ endpoint
  let init := fetchInit options
  let w1 : World := { w with fetchCalls := w.fetchCalls ++ [⟨url, init⟩] }
  match afterFetch (fetch url init) with
  | .ok v => (.ok v, w1)
  | .error error =>
    (.error error, { w1 with log := w1.log ++ [⟨"API request failed: " ++ endpoint, error⟩] })

/-- An arrow function body `this.request(...)`: the promise of `request` is
returned as it is. -/
def returned (r : Except JsErr JsVal × World) : CallResult × World :=
  (.promise r.1, r.2)

/-- The closure `markets.getCurrent`. -/
def ApiClient.markets.getCurrent (self : ApiClient) (fetch : Fetch) (w : World) :
    CallResult × World :=
  returned (self.request fetch "/current_markets" { method := some "GET" } w)

/-- The closure `markets.getHistorical`. -/
def ApiClient.markets.getHistorical (self : ApiClient) (fetch : Fetch) (w : World) :
    CallResult × World :=
  returned (self.request fetch "/historical_markets" { method := some "GET" } w)

/-- The closure `wallet.getData`. -/
def ApiClient.wallet.getData (self : ApiClient) (fetch : Fetch) (pubkey : Option String)
    (w : World) : CallResult × World :=
  if isMissing pubkey then (.threw (mkError "Public key is required"), w)
  else returned (self.request fetch ("/wallet/" ++ interpolate pubkey)
    { method := some "GET" } w)

/-- The closure `wallet.getObligations`. -/
def ApiClient.wallet.getObligations (self : ApiClient) (fetch : Fetch)
    (pubkey : Option String) (w : World) : CallResult × World :=
  if isMissing pubkey then (.threw (mkError "Public key is required"), w)
  else returned (self.request fetch ("/user_obligations/" ++ interpolate pubkey)
    { method := some "GET" } w)

/-- The closure `user.postUser`. -/
def ApiClient.user.postUser (self : ApiClient) (fetch : Fetch) (userData : JsObject)
    (w : World) : CallResult × World :=
  if !truthy (getOwn userData "wallet_address") then
    (.threw (mkError "Wallet address is required"), w)
  else returned (self.request fetch "/user"
    { method := some "POST", body := JSON.stringify (.obj userData) } w)

/-- The closure `user.getProfile`. -/
def ApiClient.user.getProfile (self : ApiClient) (fetch : Fetch) (pubkey : Option String)
    (w : World) : CallResult × World :=
  if isMissing pubkey then (.threw (mkError "Wallet address is required"), w)
  else returned (self.request fetch ("/user/" ++ interpolate pubkey)
    { method := some "GET" } w)

/-- The closure `user.updateProfile`. -/
def ApiClient.user.updateProfile (self : ApiClient) (fetch : Fetch)
    (pubkey : Option String) (userData : JsObject) (w : World) : CallResult × World :=
  if isMissing pubkey then (.threw (mkError "Wallet address is required"), w)
  else returned (self.request fetch ("/user/" ++ interpolate pubkey)
    { method := some "PUT", body := JSON.stringify (.obj userData) } w)

/-! ## Calls of the public interface -/

/-- A call of one of the seven endpoint closures, with its arguments. -/
inductive Call where
  | marketsGetCurrent : Call
  | marketsGetHistorical : Call
  | walletGetData (pubkey : Option String) : Call
  | walletGetObligations (pubkey : Option String) : Call
  | userPostUser (userData : JsObject) : Call
  | userGetProfile (pubkey : Option String) : Call
  | userUpdateProfile (pubkey : Option String) (userData : JsObject) : Call

/-- Making a call on a client. -/
def ApiClient.call (self : ApiClient) (fetch : Fetch) : Call → World → CallResult × World
  | .marketsGetCurrent => ApiClient.markets.getCurrent self fetch
  | .marketsGetHistorical => ApiClient.markets.getHistorical self fetch
  | .walletGetData pubkey => ApiClient.wallet.getData self fetch pubkey
  | .walletGetObligations pubkey => ApiClient.wallet.getObligations self fetch pubkey
  | .userPostUser userData => ApiClient.user.postUser self fetch userData
  | .userGetProfile pubkey => ApiClient.user.getProfile self fetch pubkey
  | .userUpdateProfile pubkey userData => ApiClient.user.updateProfile self fetch pubkey userData

/-! ## Reading a request body back

The client only writes JSON.  To say what a body means to the backend that
receives it, this section defines a reader of JSON object texts, written
from the grammar of RFC 8259 and not from the serializer above: it accepts
compact texts (no insignificant white space) whose member values are strings,
booleans or `null`, which covers every body the declared payload types can
produce, and it reads them as any JSON parser does. -/

/-- The value of a hexadecimal digit, in either case. -/
def hexValue (c : Char) : Option Nat :=
  if 48 ≤ c.toNat ∧ c.toNat ≤ 57 then some (c.toNat - 48)
  else if 97 ≤ c.toNat ∧ c.toNat ≤ 102 then some (c.toNat - 87)
  else if 65 ≤ c.toNat ∧ c.toNat ≤ 70 then some (c.toNat - 55)
  else none

/-- The character a two-character escape of a JSON string stands for. -/
def unescape (e : Char) : Option Char :=
  if e.toNat = 34 then some (Char.ofNat 34)
  else if e.toNat = 92 then some (Char.ofNat 92)
  else if e.toNat = 47 then some (Char.ofNat 47)
  else if e.toNat = 98 then some (Char.ofNat 8)
  else if e.toNat = 102 then some (Char.ofNat 12)
  else if e.toNat = 110 then some (Char.ofNat 10)
  else if e.toNat = 114 then some (Char.ofNat 13)
  else if e.toNat = 116 then some (Char.ofNat 9)
  else none

/-- Reading a JSON string (RFC 8259, section 7) from the character after its
opening quote: the characters it denotes and the text left after its closing
quote.  -/
def readString : List Char → Option (List Char × List Char)
  | [] => none
  | c :: rest =>
    if c.toNat = 34 then some ([], rest)
    else if c.toNat = 92 then
      match rest with
      | [] => none
      | e :: rest1 =>
        if e.toNat = 117 then
          match rest1 with
          | h1 :: h2 :: h3 :: h4 :: rest2 =>
            match hexValue h1, hexValue h2, hexValue h3, hexValue h4, readString rest2 with
            | some d1, some d2, some d3, some d4, some (s, out) =>
              if 55296 ≤ ((d1 * 16 + d2) * 16 + d3) * 16 + d4
                  ∧ ((d1 * 16 + d2) * 16 + d3) * 16 + d4 ≤ 57343 then none
              else some (Char.ofNat (((d1 * 16 + d2) * 16 + d3) * 16 + d4) :: s, out)
            | _, _, _, _, _ => none
          | _ => none
        else
          match unescape e, readString rest1 with
          | some ch, some (s, out) => some (ch :: s, out)
          | _, _ => none
    else if c.toNat < 32 then none
    else
      match readString rest with
      | some (s, out) => some (c :: s, out)
      | none => none

/-- Removing a given beginning from a text. -/
def dropStart : List Char → List Char → Option (List Char)
  | [], text => some text
  | _ :: _, [] => none
  | p :: start, c :: text => if p = c then dropStart start text else none

/-- Reading a JSON value that is a string, `true`, `false` or `null`: the
value and the text left after it. -/
def readValue (text : List Char) : Option (JsVal × List Char) :=
  match text with
  | [] => none
  | c :: rest =>
    if c.toNat = 34 then
      match readString rest with
      | some (s, out) => some (.str (String.mk s), out)
      | none => none
    else
      match dropStart "true".data text with
      | some out => some (.bool true, out)
      | none =>
        match dropStart "false".data text with
        | some out => some (.bool false, out)
        | none =>
          match dropStart "null".data text with
          | some out => some (.null, out)
          | none => none

/-- Reading one member of a JSON object: a string, a colon and a value. -/
def readMember (text : List Char) : Option ((String × JsVal) × List Char) :=
  match text with
  | [] => none
  | c :: rest =>
    if c.toNat = 34 then
      match readString rest with
      | some (k, d :: rest1) =>
        if d.toNat = 58 then
          match readValue rest1 with
          | some (v, out) => some ((String.mk k, v), out)
          | none => none
        else none
      | _ => none
    else none

/-- Reading the members of a JSON object up to the closing brace that ends
the text; `fuel` bounds the number of members. -/
def readMembers : Nat → List Char → Option JsObject
  | 0, _ => none
  | fuel + 1, text =>
    match readMember text with
    | none => none
    | some (m, out) =>
      match out with
      | [] => none
      | d :: rest =>
        if d.toNat = 125 ∧ rest = [] then some [m]
        else if d.toNat = 44 then
          match readMembers fuel rest with
          | some ms => some (m :: ms)
          | none => none
        else none

/-- Reading a compact JSON object text whose member values are strings,
booleans or `null`, as a JSON parser does (RFC 8259; a text with
insignificant white space or other values is not read). -/
def readObject (text : String) : Option JsObject :=
  match text.data with
  | [] => none
  | c :: rest =>
    if c.toNat = 123 then
      if rest = [Char.ofNat 125] then some [] else readMembers rest.length rest
    else none

/-- A value the declared payload types can hold in a property: absent
(`undefined`), `null`, a boolean or a string. -/
def isPlain : JsVal → Bool
  | .undefined => true
  | .null => true
  | .bool _ => true
  | .str _ => true
  | _ => false

/-- A value other than `undefined`. -/
def isDefined : JsVal → Bool
  | .undefined => false
  | _ => true

/-! ## Validation -/

/-- C1 (validation precedes I/O).  For every client, every `fetch` and every
state: when `pubkey` is absent or empty, `wallet.getData`,
`wallet.getObligations`, `user.getProfile` and `user.updateProfile` throw
synchronously, the wallet group with `Public key is required` and the user
group with `Wallet address is required`; when `userData.wallet_address` is
absent or empty, `user.postUser` throws synchronously with
`Wallet address is required`.  In each case the state is returned unchanged,
so no call to `fetch` has been made. -/
theorem validation_precedes_io (self : ApiClient) (fetch : Fetch) (w : World)
    (pubkey : Option String) (userData update : JsObject)
    (hpubkey : pubkey = none ∨ pubkey = some "")
    (hwallet : getOwn userData "wallet_address" = .undefined
      ∨ getOwn userData "wallet_address" = .str "") :
    ApiClient.wallet.getData self fetch pubkey w
        = (.threw ⟨"Error", "Public key is required"⟩, w)
    ∧ ApiClient.wallet.getObligations self fetch pubkey w
        = (.threw ⟨"Error", "Public key is required"⟩, w)
    ∧ ApiClient.user.getProfile self fetch pubkey w
        = (.threw ⟨"Error", "Wallet address is required"⟩, w)
    ∧ ApiClient.user.updateProfile self fetch pubkey update w
        = (.threw ⟨"Error", "Wallet address is required"⟩, w)
    ∧ ApiClient.user.postUser self fetch userData w
        = (.threw ⟨"Error", "Wallet address is required"⟩, w) := by
  have hmiss : isMissing pubkey = true := by
    rcases hpubkey with h | h <;> subst h <;> rfl
  have hfalsy : truthy (getOwn userData "wallet_address") = false := by
    rcases hwallet with h | h <;> rw [h] <;> rfl
  refine ⟨?_, ?_, ?_, ?_, ?_⟩
  · simp [ApiClient.wallet.getData, hmiss, mkError]
  · simp [ApiClient.wallet.getObligations, hmiss, mkError]
  · simp [ApiClient.user.getProfile, hmiss, mkError]
  · simp [ApiClient.user.updateProfile, hmiss, mkError]
  · simp [ApiClient.user.postUser, hfalsy, mkError]

/-- Witness of `validation_precedes_io`: an absent `pubkey` and the user data
`{ email: "a@b.c" }`, on a client that has already made no call. -/
theorem validation_precedes_io_witness :
    ApiClient.wallet.getData (ApiClient.constructor none)
        (fun _ _ => .rejected ⟨"TypeError", "Failed to fetch"⟩) none {}
        = (.threw ⟨"Error", "Public key is required"⟩, {})
    ∧ ApiClient.user.postUser (ApiClient.constructor none)
        (fun _ _ => .rejected ⟨"TypeError", "Failed to fetch"⟩) [("email", .str "a@b.c")] {}
        = (.threw ⟨"Error", "Wallet address is required"⟩, {}) :=
  have h := validation_precedes_io (ApiClient.constructor none)
    (fun _ _ => .rejected ⟨"TypeError", "Failed to fetch"⟩) {} none
    [("email", .str "a@b.c")] [] (Or.inl rfl) (Or.inl rfl)
  ⟨h.1, h.2.2.2.2⟩

/-! ## The endpoint table -/

/-- The init object sent by the GET closures: the verb, no body, the default
header. -/
theorem fetchInit_get :
    fetchInit { method := some "GET" }
      = { method := some "GET", body := none,
          headers := some [("Content-Type", "application/json")] } := by
  rfl

/-- The init object sent for options without headers: the options with the
default header added. -/
theorem fetchInit_no_headers (m : String) (body : Option String) :
    fetchInit { method := some m, body := body }
      = { method := some m, body := body,
          headers := some [("Content-Type", "application/json")] } := by
  cases body <;> rfl

/-- The fetch calls recorded by `request`: one more than before. -/
theorem request_fetchCalls (self : ApiClient) (fetch : Fetch) (endpoint : String)
    (options : RequestInit) (w : World) :
    (self.request fetch endpoint options w).2.fetchCalls
      = w.fetchCalls ++ [⟨self.baseUrl ++ endpoint, fetchInit options⟩] := by
  simp only [ApiClient.request]
  split <;> rfl

/-- A present, non-empty `pubkey` passes the test `!pubkey`. -/
theorem isMissing_some (p : String) (hp : p ≠ "") : isMissing (some p) = false := by
  simp [isMissing, hp]

/-- C2 (endpoint table).  The constructor stores the given base URL unmodified
and uses `http://localhost:3001` when none is given.  For every base URL `b`,
every non-empty `pubkey` `p`, every user data with a non-empty
`wallet_address` and every update object, each closure adds exactly one call
to `fetch`, whose URL is `b` followed by the path of the table with `p`
inserted as it is, whose method is the verb of the table and whose headers
are `Content-Type: application/json`; the GET calls have no body. -/
theorem endpoint_table (b p a : String) (fetch : Fetch) (w : World)
    (userData update : JsObject)
    (hp : p ≠ "")
    (hwallet : getOwn userData "wallet_address" = .str a) (ha : a ≠ "") :
    (ApiClient.constructor none).baseUrl = "http://localhost:3001"
    ∧ (ApiClient.constructor (some b)).baseUrl = b
    ∧ (ApiClient.markets.getCurrent (ApiClient.constructor (some b)) fetch w).2.fetchCalls
        = w.fetchCalls ++ [⟨b ++ "/current_markets",
            { method := some "GET", body := none,
              headers := some [("Content-Type", "application/json")] }⟩]
    ∧ (ApiClient.markets.getHistorical (ApiClient.constructor (some b)) fetch w).2.fetchCalls
        = w.fetchCalls ++ [⟨b ++ "/historical_markets",
            { method := some "GET", body := none,
              headers := some [("Content-Type", "application/json")] }⟩]
    ∧ (ApiClient.wallet.getData (ApiClient.constructor (some b)) fetch (some p) w).2.fetchCalls
        = w.fetchCalls ++ [⟨b ++ ("/wallet/" ++ p),
            { method := some "GET", body := none,
              headers := some [("Content-Type", "application/json")] }⟩]
    ∧ (ApiClient.wallet.getObligations (ApiClient.constructor (some b)) fetch (some p)
          w).2.fetchCalls
        = w.fetchCalls ++ [⟨b ++ ("/user_obligations/" ++ p),
            { method := some "GET", body := none,
              headers := some [("Content-Type", "application/json")] }⟩]
    ∧ (∃ body, (ApiClient.user.postUser (ApiClient.constructor (some b)) fetch userData
          w).2.fetchCalls
        = w.fetchCalls ++ [⟨b ++ "/user",
            { method := some "POST", body := body,
              headers := some [("Content-Type", "application/json")] }⟩])
    ∧ (ApiClient.user.getProfile (ApiClient.constructor (some b)) fetch (some p) w).2.fetchCalls
        = w.fetchCalls ++ [⟨b ++ ("/user/" ++ p),
            { method := some "GET", body := none,
              headers := some [("Content-Type", "application/json")] }⟩]
    ∧ (∃ body, (ApiClient.user.updateProfile (ApiClient.constructor (some b)) fetch (some p)
          update w).2.fetchCalls
        = w.fetchCalls ++ [⟨b ++ ("/user/" ++ p),
            { method := some "PUT", body := body,
              headers := some [("Content-Type", "application/json")] }⟩]) := by
  have hmiss := isMissing_some p hp
  have htruthy : truthy (getOwn userData "wallet_address") = true := by
    rw [hwallet]; simp [truthy, ha]
  refine ⟨rfl, rfl, ?_, ?_, ?_, ?_, ?_, ?_, ?_⟩
  · simp [ApiClient.markets.getCurrent, returned, request_fetchCalls, fetchInit_get,
      ApiClient.constructor]
  · simp [ApiClient.markets.getHistorical, returned, request_fetchCalls, fetchInit_get,
      ApiClient.constructor]
  · simp [ApiClient.wallet.getData, hmiss, returned, request_fetchCalls, fetchInit_get,
      ApiClient.constructor, interpolate]
  · simp [ApiClient.wallet.getObligations, hmiss, returned, request_fetchCalls,
      fetchInit_get, ApiClient.constructor, interpolate]
  · refine ⟨JSON.stringify (.obj userData), ?_⟩
    simp [ApiClient.user.postUser, htruthy, returned, request_fetchCalls,
      ApiClient.constructor, fetchInit_no_headers]
  · simp [ApiClient.user.getProfile, hmiss, returned, request_fetchCalls, fetchInit_get,
      ApiClient.constructor, interpolate]
  · refine ⟨JSON.stringify (.obj update), ?_⟩
    simp [ApiClient.user.updateProfile, hmiss, returned, request_fetchCalls,
      ApiClient.constructor, fetchInit_no_headers, interpolate]

/-- Witness of `endpoint_table`: the base URL `https://api.example`, the
`pubkey` `abc` and the user data `{ wallet_address: "abc" }`. -/
theorem endpoint_table_witness :
    (ApiClient.wallet.getData (ApiClient.constructor (some "https://api.example"))
        (fun _ _ => .rejected ⟨"TypeError", "Failed to fetch"⟩) (some "abc") {}).2.fetchCalls
      = [⟨"https://api.example/wallet/abc",
          { method := some "GET", body := none,
            headers := some [("Content-Type", "application/json")] }⟩] :=
  (endpoint_table "https://api.example" "abc" "abc"
    (fun _ _ => .rejected ⟨"TypeError", "Failed to fetch"⟩) {}
    [("wallet_address", .str "abc")] [] (by decide) rfl (by decide)).2.2.2.2.1

/-! ## The generic request -/

/-- The settlement of the promise of `request` is decided by the outcome of
the one call to `fetch`. -/
theorem request_settled (self : ApiClient) (fetch : Fetch) (endpoint : String)
    (options : RequestInit) (w : World) :
    (self.request fetch endpoint options w).1
      = afterFetch (fetch (self.baseUrl ++ endpoint) (fetchInit options)) := by
  simp only [ApiClient.request]
  split <;> simp_all

/-- The console entries after `request`: one more when the promise is
rejected, the same when it is fulfilled. -/
theorem request_log (self : ApiClient) (fetch : Fetch) (endpoint : String)
    (options : RequestInit) (w : World) :
    (self.request fetch endpoint options w).2.log
      = match (self.request fetch endpoint options w).1 with
        | .error e => w.log ++ [⟨"API request failed: " ++ endpoint, e⟩]
        | .ok _ => w.log := by
  simp only [ApiClient.request]
  split <;> rfl

/-- A call either throws synchronously and leaves the state as it is, or
calls `request` once, with options that carry no headers, and returns the
promise of `request`. -/
theorem call_cases (self : ApiClient) (fetch : Fetch) (call : Call) (w : World) :
    (∃ e, self.call fetch call w = (.threw e, w))
    ∨ (∃ endpoint options, options.headers = none
        ∧ self.call fetch call w = returned (self.request fetch endpoint options w)) := by
  cases call with
  | marketsGetCurrent => exact Or.inr ⟨_, _, rfl, rfl⟩
  | marketsGetHistorical => exact Or.inr ⟨_, _, rfl, rfl⟩
  | walletGetData pubkey =>
    simp only [ApiClient.call, ApiClient.wallet.getData]
    split
    · exact Or.inl ⟨_, rfl⟩
    · exact Or.inr ⟨_, _, rfl, rfl⟩
  | walletGetObligations pubkey =>
    simp only [ApiClient.call, ApiClient.wallet.getObligations]
    split
    · exact Or.inl ⟨_, rfl⟩
    · exact Or.inr ⟨_, _, rfl, rfl⟩
  | userPostUser userData =>
    simp only [ApiClient.call, ApiClient.user.postUser]
    split
    · exact Or.inl ⟨_, rfl⟩
    · exact Or.inr ⟨_, _, rfl, rfl⟩
  | userGetProfile pubkey =>
    simp only [ApiClient.call, ApiClient.user.getProfile]
    split
    · exact Or.inl ⟨_, rfl⟩
    · exact Or.inr ⟨_, _, rfl, rfl⟩
  | userUpdateProfile pubkey userData =>
    simp only [ApiClient.call, ApiClient.user.updateProfile]
    split
    · exact Or.inl ⟨_, rfl⟩
    · exact Or.inr ⟨_, _, rfl, rfl⟩

/-- A call that does not throw synchronously, against a backend that answers
`resp`: it returns a promise, which settles the way the statements after
`fetch` complete. -/
theorem call_settled (self : ApiClient) (fetch : Fetch) (call : Call) (w : World)
    (resp : Response)
    (hfetch : ∀ url init, fetch url init = .response resp)
    (hreturn : ∀ e, (self.call fetch call w).1 ≠ .threw e) :
    (self.call fetch call w).1 = .promise (afterFetch (.response resp)) := by
  rcases call_cases self fetch call w with ⟨e, he⟩ | ⟨endpoint, options, _, hreq⟩
  · exact absurd (congrArg Prod.fst he) (hreturn e)
  · rw [hreq]
    simp only [returned, request_settled, hfetch]

/-- The message of the template literal is never empty. -/
theorem httpErrorMessage_truthy (status : Nat) :
    truthy (.str (httpErrorMessage status)) = true := by
  have h : httpErrorMessage status ≠ "" := by
    intro h
    have hl := congrArg String.length h
    simp [httpErrorMessage, String.length_append] at hl
    exact absurd hl.1 (by decide)
  simp [truthy, h]

/-- C3 (the backend error message is surfaced).  For every call that does
not throw synchronously, when the backend answers with a non-success status
(whatever the status is) and a body that parses to a JSON object whose
`error` property is a non-empty string `m`, the call returns a promise that
is rejected with an `Error` whose message is exactly `m`. -/
theorem backend_error_surfaced (self : ApiClient) (fetch : Fetch) (call : Call)
    (w : World) (resp : Response) (props : JsObject) (m : String)
    (hfetch : ∀ url init, fetch url init = .response resp)
    (hok : resp.ok = false)
    (hjson : resp.json = .ok (.obj props))
    (herror : props.lookup "error" = some (.str m)) (hm : m ≠ "")
    (hreturn : ∀ e, (self.call fetch call w).1 ≠ .threw e) :
    (self.call fetch call w).1 = .promise (.error ⟨"Error", m⟩) := by
  rw [call_settled self fetch call w resp hfetch hreturn]
  simp [afterFetch, hok, hjson, getErrorProp, getOwn, herror, jsOr, truthy, hm, newError,
    jsToString, mkError]

/-- Witness of `backend_error_surfaced`: `wallet.getData("abc")` answered by
HTTP 404 with the body `{ "error": "wallet not found" }`. -/
theorem backend_error_surfaced_witness :
    ((ApiClient.constructor none).call
        (fun _ _ => .response ⟨false, 404, .ok (.obj [("error", .str "wallet not found")])⟩)
        (.walletGetData (some "abc")) {}).1
      = .promise (.error ⟨"Error", "wallet not found"⟩) :=
  backend_error_surfaced (ApiClient.constructor none)
    (fun _ _ => .response ⟨false, 404, .ok (.obj [("error", .str "wallet not found")])⟩)
    (.walletGetData (some "abc")) {}
    ⟨false, 404, .ok (.obj [("error", .str "wallet not found")])⟩
    [("error", .str "wallet not found")] "wallet not found"
    (fun _ _ => rfl) rfl rfl rfl (by decide) (fun _ h => nomatch h)

/-- C4 (fallback message).  For every call that does not throw synchronously,
when the backend answers with a non-success status `s` and a body that is not
JSON, or that parses to a JSON object without `error` property or with the
empty string as `error`, the call returns a promise that is rejected with an
`Error` whose message is exactly `HTTP error ` followed by `s` in decimal;
the rejection of `response.json()` is not what the caller receives. -/
theorem fallback_message (self : ApiClient) (fetch : Fetch) (call : Call)
    (w : World) (resp : Response)
    (hfetch : ∀ url init, fetch url init = .response resp)
    (hok : resp.ok = false)
    (hbody : (∃ parseError, resp.json = .error parseError)
      ∨ (∃ props, resp.json = .ok (.obj props)
          ∧ (props.lookup "error" = none ∨ props.lookup "error" = some (.str ""))))
    (hreturn : ∀ e, (self.call fetch call w).1 ≠ .threw e) :
    (self.call fetch call w).1
      = .promise (.error ⟨"Error", "HTTP error " ++ toString resp.status⟩) := by
  rw [call_settled self fetch call w resp hfetch hreturn]
  have ht := httpErrorMessage_truthy resp.status
  rcases hbody with ⟨parseError, hjson⟩ | ⟨props, hjson, herror | herror⟩
  · simp [afterFetch, hok, hjson, getErrorProp, getOwn, jsOr, ht, newError, jsToString,
      mkError, httpErrorMessage]
  · simp [afterFetch, hok, hjson, getErrorProp, getOwn, herror, jsOr, truthy, newError,
      jsToString, mkError, httpErrorMessage]
  · simp [afterFetch, hok, hjson, getErrorProp, getOwn, herror, jsOr, truthy, newError,
      jsToString, mkError, httpErrorMessage]

/-- Witness of `fallback_message`: `markets.getCurrent()` answered by HTTP 500
with the plain text `Internal Server Error`, on which `response.json()` is
rejected with a `SyntaxError`. -/
theorem fallback_message_witness :
    ((ApiClient.constructor none).call
        (fun _ _ => .response ⟨false, 500, .error ⟨"SyntaxError", "Unexpected token I"⟩⟩)
        .marketsGetCurrent {}).1
      = .promise (.error ⟨"Error", "HTTP error 500"⟩) :=
  fallback_message (ApiClient.constructor none)
    (fun _ _ => .response ⟨false, 500, .error ⟨"SyntaxError", "Unexpected token I"⟩⟩)
    .marketsGetCurrent {} ⟨false, 500, .error ⟨"SyntaxError", "Unexpected token I"⟩⟩
    (fun _ _ => rfl) rfl (Or.inl ⟨_, rfl⟩) (fun _ h => nomatch h)

/-- C5 (success is an identity pass-through).  For every call that does not
throw synchronously, when the backend answers with a success status and a
body that parses to the JSON value `v`, whatever `v` is, the call returns a
promise fulfilled with `v` itself, and nothing is written to the console. -/
theorem success_pass_through (self : ApiClient) (fetch : Fetch) (call : Call)
    (w : World) (resp : Response) (v : JsVal)
    (hfetch : ∀ url init, fetch url init = .response resp)
    (hok : resp.ok = true)
    (hjson : resp.json = .ok v)
    (hreturn : ∀ e, (self.call fetch call w).1 ≠ .threw e) :
    (self.call fetch call w).1 = .promise (.ok v)
    ∧ (self.call fetch call w).2.log = w.log := by
  have hs := call_settled self fetch call w resp hfetch hreturn
  have hv : afterFetch (.response resp) = .ok v := by
    simp [afterFetch, hok, hjson]
  rw [hv] at hs
  refine ⟨hs, ?_⟩
  rcases call_cases self fetch call w with ⟨e, he⟩ | ⟨endpoint, options, _, hreq⟩
  · exact absurd (congrArg Prod.fst he) (hreturn e)
  · rw [hreq] at hs ⊢
    simp only [returned, CallResult.promise.injEq] at hs
    simp only [returned, request_log, hs]

/-- Witness of `success_pass_through`: `markets.getCurrent()` answered by
HTTP 200 with a JSON array of one market. -/
theorem success_pass_through_witness :
    ((ApiClient.constructor none).call
        (fun _ _ => .response ⟨true, 200,
          .ok (.arr [.obj [("symbol", .str "SOL"), ("price", .num "142.5")]])⟩)
        .marketsGetCurrent {}).1
      = .promise (.ok (.arr [.obj [("symbol", .str "SOL"), ("price", .num "142.5")]]))
    ∧ ((ApiClient.constructor none).call
        (fun _ _ => .response ⟨true, 200,
          .ok (.arr [.obj [("symbol", .str "SOL"), ("price", .num "142.5")]])⟩)
        .marketsGetCurrent {}).2.log = [] :=
  success_pass_through (ApiClient.constructor none)
    (fun _ _ => .response ⟨true, 200,
      .ok (.arr [.obj [("symbol", .str "SOL"), ("price", .num "142.5")]])⟩)
    .marketsGetCurrent {}
    ⟨true, 200, .ok (.arr [.obj [("symbol", .str "SOL"), ("price", .num "142.5")]])⟩
    (.arr [.obj [("symbol", .str "SOL"), ("price", .num "142.5")]])
    (fun _ _ => rfl) rfl rfl (fun _ h => nomatch h)

/-! ## Request bodies -/

/-- The members written by `JSON.stringify` for an object: one per property
whose value serializes, in property order, made of the quoted name, a colon
and the serialized value. -/
theorem serializeMembers_eq (props : JsObject) :
    serializeMembers props
      = props.filterMap (fun p => (serializeJSON p.2).map (fun s => quoteJSON p.1 ++ ":" ++ s)) := by
  induction props with
  | nil => simp [serializeMembers]
  | cons p rest ih =>
    obtain ⟨k, v⟩ := p
    cases hv : serializeJSON v <;> simp [serializeMembers, hv, ih, List.filterMap_cons]

/-- A hexadecimal digit written by the serializer is read with its value. -/
theorem hexValue_hexDigit (k : Nat) (hk : k < 16) : hexValue (hexDigit k) = some k := by
  interval_cases k <;> rfl

/-- A character is determined by its code point. -/
theorem char_eq_of_toNat (c : Char) (n : Nat) (h : c.toNat = n) : c = Char.ofNat n := by
  rw [← h, Char.ofNat_toNat]

/-- Reading the escape of one character gives that character back, in front
of what is read from the rest. -/
theorem readString_quoteChar (c : Char) (text s out : List Char)
    (h : readString text = some (s, out)) :
    readString ((quoteChar c).data ++ text) = some (c :: s, out) := by
  unfold quoteChar
  split_ifs with h8 h9 h10 h12 h13 h34 h92 h32
  · have hc := char_eq_of_toNat c 8 h8
    subst hc
    show readString (Char.ofNat 92 :: Char.ofNat 98 :: text) = _
    rw [readString.eq_def]
    simp [unescape, h]
  · have hc := char_eq_of_toNat c 9 h9
    subst hc
    show readString (Char.ofNat 92 :: Char.ofNat 116 :: text) = _
    rw [readString.eq_def]
    simp [unescape, h]
  · have hc := char_eq_of_toNat c 10 h10
    subst hc
    show readString (Char.ofNat 92 :: Char.ofNat 110 :: text) = _
    rw [readString.eq_def]
    simp [unescape, h]
  · have hc := char_eq_of_toNat c 12 h12
    subst hc
    show readString (Char.ofNat 92 :: Char.ofNat 102 :: text) = _
    rw [readString.eq_def]
    simp [unescape, h]
  · have hc := char_eq_of_toNat c 13 h13
    subst hc
    show readString (Char.ofNat 92 :: Char.ofNat 114 :: text) = _
    rw [readString.eq_def]
    simp [unescape, h]
  · have hc := char_eq_of_toNat c 34 h34
    subst hc
    show readString (Char.ofNat 92 :: Char.ofNat 34 :: text) = _
    rw [readString.eq_def]
    simp [unescape, h]
  · have hc := char_eq_of_toNat c 92 h92
    subst hc
    show readString (Char.ofNat 92 :: Char.ofNat 92 :: text) = _
    rw [readString.eq_def]
    simp [unescape, h]
  · have hlt : c.toNat / 16 < 16 := by omega
    have hmod : c.toNat % 16 < 16 := Nat.mod_lt _ (by decide)
    show readString (Char.ofNat 92 :: Char.ofNat 117 :: Char.ofNat 48 :: Char.ofNat 48
      :: hexDigit (c.toNat / 16) :: hexDigit (c.toNat % 16) :: text) = _
    rw [readString.eq_def]
    have h0 : hexValue (Char.ofNat 48) = some 0 := rfl
    have hval : c.toNat / 16 * 16 + c.toNat % 16 = c.toNat := by omega
    simp [h0, hexValue_hexDigit _ hlt, hexValue_hexDigit _ hmod, h, hval]
    omega
  · show readString (c :: text) = _
    rw [readString.eq_def]
    simp [h34, h92, h32, h]

/-- Reading the escaped characters of a string up to the closing quote gives
the string back, whatever its characters. -/
theorem readString_quoted (s out : List Char) :
    readString ((s.map (fun c => (quoteChar c).data)).flatten ++ Char.ofNat 34 :: out)
      = some (s, out) := by
  induction s with
  | nil =>
    show readString (Char.ofNat 34 :: out) = _
    rw [readString.eq_def]
    simp
  | cons c s ih =>
    simp only [List.map_cons, List.flatten_cons, List.append_assoc]
    exact readString_quoteChar c _ s out ih

/-- The characters of a quoted string: a quote, the escapes, a quote. -/
theorem quoteJSON_data (s : String) :
    (quoteJSON s).data
      = Char.ofNat 34 :: ((s.data.map (fun c => (quoteChar c).data)).flatten ++ [Char.ofNat 34]) := by
  simp [quoteJSON, String.data_append, String.data_join, List.map_map, Function.comp_def]

/-- A defined value of a plain kind serializes, and its text is read as that
value. -/
theorem readValue_serialize (v : JsVal) (out : List Char)
    (hplain : isPlain v = true) (hdef : isDefined v = true) :
    ∃ t, serializeJSON v = some t ∧ readValue (t.data ++ out) = some (v, out) := by
  cases v with
  | undefined => simp [isDefined] at hdef
  | null =>
    refine ⟨"null", rfl, ?_⟩
    rfl
  | bool b =>
    cases b
    · exact ⟨"false", rfl, rfl⟩
    · exact ⟨"true", rfl, rfl⟩
  | num t => simp [isPlain] at hplain
  | str s =>
    refine ⟨quoteJSON s, by simp [serializeJSON], ?_⟩
    rw [quoteJSON_data]
    simp only [List.cons_append, List.append_assoc, List.nil_append, readValue]
    simp [readString_quoted]
  | arr items => simp [isPlain] at hplain
  | obj props => simp [isPlain] at hplain

/-- A member written by the serializer is read as the property it was written
for. -/
theorem readMember_serialize (k : String) (v : JsVal) (out : List Char)
    (hplain : isPlain v = true) (hdef : isDefined v = true) :
    ∃ t, serializeJSON v = some t
      ∧ readMember ((quoteJSON k ++ ":" ++ t).data ++ out) = some ((k, v), out) := by
  obtain ⟨t, ht, hread⟩ := readValue_serialize v out hplain hdef
  refine ⟨t, ht, ?_⟩
  have hcolon : ":".data = [Char.ofNat 58] := rfl
  simp only [String.data_append, quoteJSON_data, hcolon, List.cons_append, List.append_assoc,
    List.nil_append, readMember]
  simp [readString_quoted, hread]

/-- The characters accumulated by `String.intercalate`. -/
theorem intercalate_go_data (acc sep : String) (l : List String) :
    (String.intercalate.go acc sep l).data
      = acc.data ++ (l.map (fun a => sep.data ++ a.data)).flatten := by
  induction l generalizing acc with
  | nil => simp [String.intercalate.go]
  | cons a l ih => simp [String.intercalate.go, ih, String.data_append]

/-- The characters of strings joined with a separator. -/
theorem intercalate_cons_data (sep a : String) (l : List String) :
    (sep.intercalate (a :: l)).data
      = a.data ++ (l.map (fun b => sep.data ++ b.data)).flatten := by
  simp [String.intercalate, intercalate_go_data]

/-- A defined value has a serialization. -/
theorem serializeJSON_isSome (v : JsVal) (hdef : isDefined v = true) :
    ∃ t, serializeJSON v = some t := by
  cases v <;> simp [serializeJSON, isDefined] at hdef ⊢

/-- The serializer writes one member for each property whose value is
defined, and none for a property that holds `undefined`. -/
theorem serializeMembers_defined (props : JsObject) :
    serializeMembers props
      = (props.filter (fun f => isDefined f.2)).map
          (fun f => quoteJSON f.1 ++ ":" ++ (serializeJSON f.2).getD "") := by
  induction props with
  | nil => simp [serializeMembers]
  | cons p rest ih =>
    obtain ⟨k, v⟩ := p
    cases hd : isDefined v with
    | false =>
      have hv : v = .undefined := by cases v <;> simp [isDefined] at hd ⊢
      subst hv
      simp [serializeMembers, serializeJSON, ih, isDefined]
    | true =>
      obtain ⟨t, ht⟩ := serializeJSON_isSome v hd
      simp [serializeMembers, ht, ih, hd]

/-- Members written by the serializer, separated by commas and closed by a
brace, are read as the properties they were written for. -/
theorem readMembers_texts (ms : JsObject) :
    ∀ (m : String × JsVal) (fuel : Nat), ms.length + 1 ≤ fuel →
      (isPlain m.2 = true ∧ isDefined m.2 = true) →
      (∀ f ∈ ms, isPlain f.2 = true ∧ isDefined f.2 = true) →
      readMembers fuel
          ((quoteJSON m.1 ++ ":" ++ (serializeJSON m.2).getD "").data
            ++ ((ms.map (fun f => quoteJSON f.1 ++ ":" ++ (serializeJSON f.2).getD "")).map
                  (fun b => ",".data ++ b.data)).flatten
            ++ [Char.ofNat 125])
        = some (m :: ms) := by
  induction ms with
  | nil =>
    intro m fuel hfuel hm _
    obtain ⟨k, v⟩ := m
    obtain ⟨t, ht, hread⟩ := readMember_serialize k v [Char.ofNat 125] hm.1 hm.2
    obtain ⟨fuel, rfl⟩ : ∃ n, fuel = n + 1 := ⟨fuel - 1, by omega⟩
    simp only [List.map_nil, List.flatten_nil, List.append_nil, ht, Option.getD_some]
    rw [readMembers, hread]
    simp
  | cons m1 ms ih =>
    intro m fuel hfuel hm hms
    obtain ⟨k, v⟩ := m
    obtain ⟨fuel, rfl⟩ : ∃ n, fuel = n + 1 := ⟨fuel - 1, by omega⟩
    have hm1 := hms m1 (List.mem_cons_self _ _)
    have hrest := ih m1 fuel (by simp at hfuel; omega) hm1
      (fun f hf => hms f (List.mem_cons_of_mem _ hf))
    obtain ⟨t, ht, hread⟩ := readMember_serialize k v
      (Char.ofNat 44 :: ((quoteJSON m1.1 ++ ":" ++ (serializeJSON m1.2).getD "").data
        ++ ((ms.map (fun f => quoteJSON f.1 ++ ":" ++ (serializeJSON f.2).getD "")).map
              (fun b => ",".data ++ b.data)).flatten
        ++ [Char.ofNat 125])) hm.1 hm.2
    have htext : (quoteJSON k ++ ":" ++ (serializeJSON v).getD "").data
          ++ (((m1 :: ms).map
                (fun f => quoteJSON f.1 ++ ":" ++ (serializeJSON f.2).getD "")).map
                  (fun b => ",".data ++ b.data)).flatten
          ++ [Char.ofNat 125]
        = (quoteJSON k ++ ":" ++ t).data
          ++ (Char.ofNat 44 :: ((quoteJSON m1.1 ++ ":" ++ (serializeJSON m1.2).getD "").data
            ++ ((ms.map (fun f => quoteJSON f.1 ++ ":" ++ (serializeJSON f.2).getD "")).map
                  (fun b => ",".data ++ b.data)).flatten
            ++ [Char.ofNat 125])) := by
      have hcomma : ",".data = [Char.ofNat 44] := rfl
      simp only [List.map_cons, List.flatten_cons, hcomma, List.cons_append, List.nil_append,
        List.append_assoc, ht, Option.getD_some]
    show readMembers (fuel + 1) _ = _
    rw [htext, readMembers, hread]
    dsimp only
    rw [if_neg (fun h => absurd h.1 (by decide)), if_pos (by decide), hrest]

/-- Texts that each start with a non-empty separator have at least as many
characters as there are texts. -/
theorem flatten_length_ge (sep : List Char) (hsep : 1 ≤ sep.length) (l : List String) :
    l.length ≤ ((l.map (fun b => sep ++ b.data)).flatten).length := by
  induction l with
  | nil => simp
  | cons a l ih =>
    simp only [List.map_cons, List.flatten_cons, List.length_append, List.length_cons]
    omega

/-- The object text written for properties of plain kinds is read back as
exactly the properties whose value is defined. -/
theorem readObject_stringify (props : JsObject)
    (hplain : props.all (fun f => isPlain f.2) = true) :
    readObject ("\x7b" ++ ",".intercalate (serializeMembers props) ++ "\x7d")
      = some (props.filter (fun f => isDefined f.2)) := by
  rw [serializeMembers_defined]
  have hall : ∀ f ∈ props.filter (fun f => isDefined f.2),
      isPlain f.2 = true ∧ isDefined f.2 = true := by
    intro f hf
    rw [List.mem_filter] at hf
    exact ⟨(List.all_eq_true.mp hplain) f hf.1, hf.2⟩
  generalize props.filter (fun f => isDefined f.2) = ms at hall
  cases ms with
  | nil => rfl
  | cons m ms =>
    have hopen : "\x7b".data = [Char.ofNat 123] := rfl
    have hclose : "\x7d".data = [Char.ofNat 125] := rfl
    have hm := hall m (List.mem_cons_self _ _)
    have hms : ∀ f ∈ ms, isPlain f.2 = true ∧ isDefined f.2 = true :=
      fun f hf => hall f (List.mem_cons_of_mem _ hf)
    obtain ⟨k, v⟩ := m
    obtain ⟨t, ht⟩ := serializeJSON_isSome v hm.2
    have hdata : ("\x7b" ++ ",".intercalate (((k, v) :: ms).map
          (fun f => quoteJSON f.1 ++ ":" ++ (serializeJSON f.2).getD "")) ++ "\x7d").data
        = Char.ofNat 123 :: ((quoteJSON (k, v).1 ++ ":" ++ (serializeJSON (k, v).2).getD "").data
            ++ ((ms.map (fun f => quoteJSON f.1 ++ ":" ++ (serializeJSON f.2).getD "")).map
                  (fun b => ",".data ++ b.data)).flatten
            ++ [Char.ofNat 125]) := by
      simp only [String.data_append, List.map_cons, intercalate_cons_data, hopen, hclose,
        List.cons_append, List.nil_append, List.append_assoc]
    have hne : (quoteJSON (k, v).1 ++ ":" ++ (serializeJSON (k, v).2).getD "").data
          ++ ((ms.map (fun f => quoteJSON f.1 ++ ":" ++ (serializeJSON f.2).getD "")).map
                (fun b => ",".data ++ b.data)).flatten
          ++ [Char.ofNat 125] ≠ [Char.ofNat 125] := by
      intro h
      have hl := congrArg List.length h
      have hq : 1 ≤ (quoteJSON k ++ ":" ++ (serializeJSON v).getD "").data.length := by
        simp only [String.data_append, quoteJSON_data, List.length_append, List.length_cons]
        omega
      simp only [List.length_append, List.length_cons, List.length_nil] at hl
      omega
    have hfuel : ms.length + 1 ≤ ((quoteJSON (k, v).1 ++ ":" ++ (serializeJSON (k, v).2).getD "").data
          ++ ((ms.map (fun f => quoteJSON f.1 ++ ":" ++ (serializeJSON f.2).getD "")).map
                (fun b => ",".data ++ b.data)).flatten
          ++ [Char.ofNat 125]).length := by
      have hlen := flatten_length_ge ",".data (by decide)
        (ms.map (fun f => quoteJSON f.1 ++ ":" ++ (serializeJSON f.2).getD ""))
      simp only [List.length_map] at hlen
      simp only [List.length_append, List.length_cons, List.length_nil]
      omega
    unfold readObject
    rw [hdata]
    dsimp only
    rw [if_pos (by decide), if_neg hne]
    exact readMembers_texts ms (k, v) _ hfuel hm hms

/-- C6 (request bodies carry exactly the supplied fields).  For every user
data with a non-empty `wallet_address`, `user.postUser` makes one call to
`fetch`, a POST to the base URL followed by `/user`, whose body is the JSON
object text with one member for each property present in the user data (a
property whose value is `undefined` has no member) and no other member.  For
every non-empty `pubkey` and every update object, `user.updateProfile` makes
one call, a PUT to the base URL followed by `/user/` and the `pubkey`, whose
body is built in the same way from the update object alone: the `pubkey` is
in the path and is not used for the body.  When the property values are of
the kinds the declared payload types allow (a string, a boolean, `null`, or
`undefined` for an optional property left out), a JSON reader gets back from
each body exactly the supplied properties whose value is defined, with their
names and values, in order, whatever characters the strings contain: no
member is added, lost, or written as `null` for an absent property. -/
theorem request_bodies (self : ApiClient) (fetch : Fetch) (w : World)
    (userData update : JsObject) (a p : String)
    (hwallet : getOwn userData "wallet_address" = .str a) (ha : a ≠ "")
    (hp : p ≠ "") :
    (ApiClient.user.postUser self fetch userData w).2.fetchCalls
        = w.fetchCalls ++ [⟨self.baseUrl ++ "/user",
            { method := some "POST",
              body := some ("\x7b" ++ ",".intercalate (userData.filterMap (fun f =>
                (JSON.stringify f.2).map (fun s => quoteJSON f.1 ++ ":" ++ s))) ++ "\x7d"),
              headers := some [("Content-Type", "application/json")] }⟩]
    ∧ (ApiClient.user.updateProfile self fetch (some p) update w).2.fetchCalls
        = w.fetchCalls ++ [⟨self.baseUrl ++ ("/user/" ++ p),
            { method := some "PUT",
              body := some ("\x7b" ++ ",".intercalate (update.filterMap (fun f =>
                (JSON.stringify f.2).map (fun s => quoteJSON f.1 ++ ":" ++ s))) ++ "\x7d"),
              headers := some [("Content-Type", "application/json")] }⟩]
    ∧ (userData.all (fun f => isPlain f.2) = true →
        readObject ("\x7b" ++ ",".intercalate (userData.filterMap (fun f =>
          (JSON.stringify f.2).map (fun s => quoteJSON f.1 ++ ":" ++ s))) ++ "\x7d")
          = some (userData.filter (fun f => isDefined f.2)))
    ∧ (update.all (fun f => isPlain f.2) = true →
        readObject ("\x7b" ++ ",".intercalate (update.filterMap (fun f =>
          (JSON.stringify f.2).map (fun s => quoteJSON f.1 ++ ":" ++ s))) ++ "\x7d")
          = some (update.filter (fun f => isDefined f.2))) := by
  have hmiss := isMissing_some p hp
  have htruthy : truthy (getOwn userData "wallet_address") = true := by
    rw [hwallet]; simp [truthy, ha]
  have hser : ∀ props : JsObject, JSON.stringify (.obj props)
      = some ("\x7b" ++ ",".intercalate (props.filterMap (fun f =>
          (JSON.stringify f.2).map (fun s => quoteJSON f.1 ++ ":" ++ s))) ++ "\x7d") := by
    intro props
    simp only [JSON.stringify, serializeJSON, serializeMembers_eq]
  have hread : ∀ props : JsObject, props.all (fun f => isPlain f.2) = true →
      readObject ("\x7b" ++ ",".intercalate (props.filterMap (fun f =>
        (JSON.stringify f.2).map (fun s => quoteJSON f.1 ++ ":" ++ s))) ++ "\x7d")
        = some (props.filter (fun f => isDefined f.2)) := by
    intro props hplain
    have h := readObject_stringify props hplain
    rw [serializeMembers_eq] at h
    exact h
  refine ⟨?_, ?_, hread userData, hread update⟩
  · rw [ApiClient.user.postUser, hser]
    simp [htruthy, returned, request_fetchCalls, fetchInit_no_headers]
  · rw [ApiClient.user.updateProfile, hser]
    simp [hmiss, returned, request_fetchCalls, fetchInit_no_headers, interpolate]

/-- Witness of `request_bodies`, at two inputs.  First the examples of the
claim: `postUser({ wallet_address: "abc" })` sends `{"wallet_address":"abc"}`
to `/user`, and `updateProfile("abc", { risk_level: "high" })` sends
`{"risk_level":"high"}` to `/user/abc`.  Then a wallet address that contains
quotes, `a","risk_level":"admin`, next to an `email` that holds `undefined`:
the quotes are escaped, the body has the one member `wallet_address`, and it
is read back as that one property; and the update
`{ email: undefined, update_login_time: true }` is sent as
`{"update_login_time":true}`. -/
theorem request_bodies_witness :
    ((ApiClient.user.postUser (ApiClient.constructor none)
        (fun _ _ => .rejected ⟨"TypeError", "Failed to fetch"⟩)
        [("wallet_address", .str "abc")] {}).2.fetchCalls
      = [⟨"http://localhost:3001/user",
          { method := some "POST",
            body := some "\x7b\x22wallet_address\x22:\x22abc\x22\x7d",
            headers := some [("Content-Type", "application/json")] }⟩]
    ∧ (ApiClient.user.updateProfile (ApiClient.constructor none)
        (fun _ _ => .rejected ⟨"TypeError", "Failed to fetch"⟩)
        (some "abc") [("risk_level", .str "high")] {}).2.fetchCalls
      = [⟨"http://localhost:3001/user/abc",
          { method := some "PUT",
            body := some "\x7b\x22risk_level\x22:\x22high\x22\x7d",
            headers := some [("Content-Type", "application/json")] }⟩])
    ∧ ((ApiClient.user.postUser (ApiClient.constructor none)
        (fun _ _ => .rejected ⟨"TypeError", "Failed to fetch"⟩)
        [("wallet_address", .str "a\x22,\x22risk_level\x22:\x22admin"),
          ("email", .undefined)] {}).2.fetchCalls
      = [⟨"http://localhost:3001/user",
          { method := some "POST",
            body := some
              "\x7b\x22wallet_address\x22:\x22a\x5c\x22,\x5c\x22risk_level\x5c\x22:\x5c\x22admin\x22\x7d",
            headers := some [("Content-Type", "application/json")] }⟩]
    ∧ (ApiClient.user.updateProfile (ApiClient.constructor none)
        (fun _ _ => .rejected ⟨"TypeError", "Failed to fetch"⟩)
        (some "abc") [("email", .undefined), ("update_login_time", .bool true)]
        {}).2.fetchCalls
      = [⟨"http://localhost:3001/user/abc",
          { method := some "PUT",
            body := some "\x7b\x22update_login_time\x22:true\x7d",
            headers := some [("Content-Type", "application/json")] }⟩]
    ∧ readObject
        "\x7b\x22wallet_address\x22:\x22a\x5c\x22,\x5c\x22risk_level\x5c\x22:\x5c\x22admin\x22\x7d"
      = some [("wallet_address", .str "a\x22,\x22risk_level\x22:\x22admin")]
    ∧ readObject "\x7b\x22update_login_time\x22:true\x7d"
      = some [("update_login_time", .bool true)]) :=
  have h1 := request_bodies (ApiClient.constructor none)
    (fun _ _ => .rejected ⟨"TypeError", "Failed to fetch"⟩) {}
    [("wallet_address", .str "abc")] [("risk_level", .str "high")] "abc" "abc"
    rfl (by decide) (by decide)
  have h2 := request_bodies (ApiClient.constructor none)
    (fun _ _ => .rejected ⟨"TypeError", "Failed to fetch"⟩) {}
    [("wallet_address", .str "a\x22,\x22risk_level\x22:\x22admin"), ("email", .undefined)]
    [("email", .undefined), ("update_login_time", .bool true)]
    "a\x22,\x22risk_level\x22:\x22admin" "abc"
    rfl (by decide) (by decide)
  ⟨⟨h1.1, h1.2.1⟩, ⟨h2.1, h2.2.1, h2.2.2.1 rfl, h2.2.2.2 rfl⟩⟩

/-! ## Headers -/

/-- C7 (header merging), evaluated on options that supply the headers
`{ Authorization: "Bearer t" }`: the inner object literal merges them over
the default into `Content-Type` and `Authorization`, but the spread of
`options` that follows the `headers` property in the init object puts
`options.headers` back in its place, so `fetch` receives the supplied headers
alone, without `Content-Type: application/json`. -/
theorem request_supplied_headers_replace_default (fetch : Fetch) :
    spreadHeaders [("Content-Type", "application/json")]
        (some [("Authorization", "Bearer t")])
      = [("Content-Type", "application/json"), ("Authorization", "Bearer t")]
    ∧ ((ApiClient.constructor none).request fetch "/current_markets"
        { method := some "GET", headers := some [("Authorization", "Bearer t")] }
        {}).2.fetchCalls
      = [⟨"http://localhost:3001/current_markets",
          { method := some "GET", body := none,
            headers := some [("Authorization", "Bearer t")] }⟩] := by
  refine ⟨by decide, ?_⟩
  rw [request_fetchCalls]
  rfl

/-! ## Error bodies -/

/-- C8 (any error body is tolerated), evaluated on a response with status 500
whose body is the JSON text `null`: `response.json()` is fulfilled with
`null`, reading `errorData.error` throws, and the promise of
`markets.getCurrent()` is rejected with that `TypeError` (the message is the
wording of the engine), not with an `Error` saying `HTTP error 500`. -/
theorem null_error_body_rejects_with_type_error :
    (ApiClient.constructor none).call (fun _ _ => .response ⟨false, 500, .ok .null⟩)
        .marketsGetCurrent {}
      = (.promise (.error
            ⟨"TypeError", "Cannot read properties of null (reading \x27error\x27)"⟩),
          { fetchCalls := [⟨"http://localhost:3001/current_markets",
              { method := some "GET", body := none,
                headers := some [("Content-Type", "application/json")] }⟩],
            log := [⟨"API request failed: /current_markets",
              ⟨"TypeError", "Cannot read properties of null (reading \x27error\x27)"⟩⟩] }) := by
  rfl

/-! ## Logging -/

/-- C9 (failure logging of the generic request).  For every call of
`request`: when the promise is rejected with `e`, the console has exactly one
more entry, made of `API request failed: ` followed by the endpoint and of
`e` itself, and it is in the state in which the rejection is observed; when
the promise is fulfilled the console is unchanged.  The promise is rejected
with the error of `fetch` when `fetch` is rejected, rejected when the status
is not a success, and settles as `response.json()` does when the status is a
success, so a success body that is not JSON rejects it with the parse
error. -/
theorem request_failure_logged (self : ApiClient) (fetch : Fetch) (endpoint : String)
    (options : RequestInit) (w : World) :
    (match self.request fetch endpoint options w with
      | (.error e, w') => w'.log = w.log ++ [⟨"API request failed: " ++ endpoint, e⟩]
      | (.ok _, w') => w'.log = w.log)
    ∧ (match fetch (self.baseUrl ++ endpoint) (fetchInit options) with
      | .rejected e => (self.request fetch endpoint options w).1 = .error e
      | .response resp =>
        if resp.ok then (self.request fetch endpoint options w).1 = resp.json
        else ∃ e, (self.request fetch endpoint options w).1 = .error e) := by
  constructor
  · have hl := request_log self fetch endpoint options w
    revert hl
    generalize self.request fetch endpoint options w = res
    obtain ⟨r, w'⟩ := res
    cases r <;> exact id
  · rw [request_settled]
    cases hf : fetch (self.baseUrl ++ endpoint) (fetchInit options) with
    | rejected e => rfl
    | response resp =>
      cases hok : resp.ok with
      | true => simp [afterFetch, hok]
      | false =>
        simp only [afterFetch, hok, Bool.not_false, if_true, Bool.false_eq_true, if_false]
        split
        · exact ⟨_, rfl⟩
        · split <;> exact ⟨_, rfl⟩

/-- C10 (all errors are logged once), refuted on a validation error:
`wallet.getData()` without `pubkey` on a client with an empty console throws
`Public key is required`, and the console is still empty. -/
theorem validation_error_not_logged :
    ApiClient.wallet.getData (ApiClient.constructor none)
        (fun _ _ => .rejected ⟨"TypeError", "Failed to fetch"⟩) none
        { fetchCalls := [], log := [] }
      = (.threw ⟨"Error", "Public key is required"⟩, { fetchCalls := [], log := [] }) := by
  rfl

/-- C10, amended.  For every call of an endpoint closure: an error that
reaches the caller as the rejection of the returned promise (a non-success
status, a failed `fetch`, a body that cannot be decoded) has exactly one new
console entry, made of `API request failed: ` followed by the endpoint that
was fetched and of that error; a fulfilled promise leaves the console
unchanged; and an error thrown synchronously (a missing `pubkey` or
`wallet_address`) leaves the whole state unchanged, without console entry. -/
theorem rejections_logged_once (self : ApiClient) (fetch : Fetch) (call : Call)
    (w : World) :
    match self.call fetch call w with
    | (.threw _, w') => w' = w
    | (.promise (.error e), w') =>
      ∃ endpoint init,
        w'.fetchCalls = w.fetchCalls ++ [⟨self.baseUrl ++ endpoint, init⟩]
        ∧ w'.log = w.log ++ [⟨"API request failed: " ++ endpoint, e⟩]
    | (.promise (.ok _), w') => w'.log = w.log := by
  rcases call_cases self fetch call w with ⟨e, he⟩ | ⟨endpoint, options, _, hreq⟩
  · rw [he]
  · rw [hreq]
    have hl := request_log self fetch endpoint options w
    have hc := request_fetchCalls self fetch endpoint options w
    revert hl hc
    generalize self.request fetch endpoint options w = res
    obtain ⟨r, w'⟩ := res
    cases r with
    | error e => exact fun hl hc => ⟨endpoint, _, hc, hl⟩
    | ok v => exact fun hl _ => hl

end ArrayApi
